import Mathlib

/-!
Verification of the voice-recorder capture/encoding core
(`src/components/AudioRecorder/AudioRecorder.tsx` and the unnamed
`VoiceMessageRecorder` component).

Float samples are modelled as rationals.  Every arithmetic step the source
performs on a sample (comparison, clamping, multiplication by 32767 or by the
power of two 32768 of a 24-bit-mantissa float32 input, truncation by `ToInt16`)
is exact in the source's double precision, so the rational model is faithful.
Because rational multiplication does not reduce in the kernel, the quantizers
are written with exact integer arithmetic on numerator and denominator
(`Int.tdiv` is exactly the truncation toward zero that JavaScript's `ToInt16`
performs); the lemmas `quantWav_eq` and `quantMp3_eq` prove them equal to the
directly transcribed `⌈·⌉`/`⌊·⌋` forms of the source expressions.
-/

namespace VoiceRecorder

/-- Truncation toward zero of `q * m`, for a rational `q` and integer scale
`m`: the value JavaScript's `ToInt16` conversion produces for the in-range
double `q * m`.  Since `q.den > 0`, `(q.num * m).tdiv q.den` rounds the exact
quotient toward zero. -/
def mulTrunc (q : ℚ) (m : ℤ) : ℤ :=
  (q.num * m).tdiv q.den

/-- Clamp a sample to [-1, 1]: `Math.max(-1, Math.min(1, s))`
(AudioRecorder.tsx:695). -/
def clampUnit (s : ℚ) : ℚ :=
  max (-1) (min 1 s)

/-- WAV quantizer (AudioRecorder.tsx:695-696, identically `encodeWAV`
lines 45-46 of the unnamed component): clamp to [-1,1], then
`s < 0 ? s * 0x8000 : s * 0x7fff`, truncated toward zero by `setInt16`. -/
def quantWav (s : ℚ) : ℤ :=
  let c := clampUnit s
  if c < 0 then mulTrunc c 32768 else mulTrunc c 32767

/-- MP3-path quantizer (AudioRecorder.tsx:386-393):
`Math.max(-32768, Math.min(32767, s * 32768))`, truncated toward zero by the
`Int16Array` store.  The source clamps the double and then truncates; since
the clamp bounds are integers, truncating first and clamping after yields the
same integer, which keeps the definition kernel-computable. -/
def quantMp3 (s : ℚ) : ℤ :=
  max (-32768) (min 32767 (mulTrunc s 32768))

theorem tdiv_nonneg_eq_floor (a : ℤ) (b : ℕ) (ha : 0 ≤ a) :
    a.tdiv b = ⌊(a : ℚ) / (b : ℚ)⌋ := by
  rw [Int.tdiv_eq_ediv ha (by positivity), ← Rat.floor_intCast_div_natCast]

theorem tdiv_nonpos_eq_ceil (a : ℤ) (b : ℕ) (ha : a ≤ 0) :
    a.tdiv b = ⌈(a : ℚ) / (b : ℚ)⌉ := by
  have h1 : (-a).tdiv b = ⌊((-a : ℤ) : ℚ) / (b : ℚ)⌋ :=
    tdiv_nonneg_eq_floor (-a) b (by omega)
  have h2 : a.tdiv b = -((-a).tdiv b) := by
    rw [Int.neg_tdiv, neg_neg]
  have h3 : ((-a : ℤ) : ℚ) / (b : ℚ) = -((a : ℚ) / (b : ℚ)) := by
    push_cast
    ring
  rw [h2, h1, h3, Int.floor_neg, neg_neg]

theorem rat_mul_int_eq (q : ℚ) (m : ℤ) :
    q * (m : ℚ) = ((q.num * m : ℤ) : ℚ) / ((q.den : ℕ) : ℚ) := by
  conv_lhs => rw [← Rat.num_div_den q]
  push_cast
  ring

theorem mulTrunc_eq_floor (q : ℚ) (m : ℤ) (hq : 0 ≤ q) (hm : 0 ≤ m) :
    mulTrunc q m = ⌊q * (m : ℚ)⌋ := by
  have hnum : 0 ≤ q.num := Rat.num_nonneg.mpr hq
  rw [rat_mul_int_eq, mulTrunc, tdiv_nonneg_eq_floor _ _ (mul_nonneg hnum hm)]

theorem mulTrunc_eq_ceil (q : ℚ) (m : ℤ) (hq : q ≤ 0) (hm : 0 ≤ m) :
    mulTrunc q m = ⌈q * (m : ℚ)⌉ := by
  have hnum : q.num ≤ 0 := Rat.num_nonpos.mpr hq
  rw [rat_mul_int_eq, mulTrunc,
    tdiv_nonpos_eq_ceil _ _ (mul_nonpos_of_nonpos_of_nonneg hnum hm)]

/-- The WAV quantizer in the form the source writes it: clamp, then
`s < 0 ? s * 0x8000 : s * 0x7fff` truncated toward zero (ceiling for a
negative product, floor for a non-negative one). -/
theorem quantWav_eq (s : ℚ) :
    quantWav s =
      if clampUnit s < 0 then ⌈clampUnit s * 32768⌉ else ⌊clampUnit s * 32767⌋ := by
  by_cases h : clampUnit s < 0
  · simp only [quantWav, h, if_true]
    rw [mulTrunc_eq_ceil _ _ h.le (by norm_num)]
    norm_num
  · simp only [quantWav, h, if_false]
    rw [mulTrunc_eq_floor _ _ (le_of_not_lt h) (by norm_num)]
    norm_num

/-- The MP3-path quantizer in the form the source writes it. -/
theorem quantMp3_eq (s : ℚ) :
    quantMp3 s =
      max (-32768) (min 32767 (if s < 0 then ⌈s * 32768⌉ else ⌊s * 32768⌋)) := by
  by_cases h : s < 0
  · simp only [quantMp3, h, if_true]
    rw [mulTrunc_eq_ceil _ _ h.le (by norm_num)]
    norm_num
  · simp only [quantMp3, h, if_false]
    rw [mulTrunc_eq_floor _ _ (le_of_not_lt h) (by norm_num)]
    norm_num

/-- Little-endian bytes of a 32-bit field, as written by
`DataView.setUint32(off, v, true)` (which wraps the value via `ToUint32`). -/
def uint32LE (n : ℕ) : List ℕ :=
  [n % 256, n / 256 % 256, n / 65536 % 256, n / 16777216 % 256]

/-- Little-endian bytes of a 16-bit field (`DataView.setUint16`). -/
def uint16LE (n : ℕ) : List ℕ :=
  [n % 256, n / 256 % 256]

/-- Little-endian two's-complement bytes of a 16-bit signed write
(`DataView.setInt16(off, v, true)` / an `Int16Array` store). -/
def int16LE (v : ℤ) : List ℕ :=
  uint16LE (v % 65536).toNat

/-- ASCII bytes of the chunk tag strings written by `writeAscii`. -/
def asciiRIFF : List ℕ := [82, 73, 70, 70]

def asciiWAVE : List ℕ := [87, 65, 86, 69]

def asciiFmtSp : List ℕ := [102, 109, 116, 32]

def asciiDataTag : List ℕ := [100, 97, 116, 97]

/-- The 44-byte WAV header written at offsets 0..43 by `buildWavFromFloat32`
(AudioRecorder.tsx:680-692) for `n` mono 16-bit samples at rate `rate`: the
`DataView` writes are sequential and non-overlapping, so the header is the
concatenation of the fields in offset order (0 RIFF, 4 riff-size, 8 WAVE,
12 fmt-tag, 16 subchunk size, 20 audio format, 22 channels, 24 rate,
28 byte rate, 32 block align, 34 bits per sample, 36 data-tag,
40 data size). -/
def wavHeader (n rate : ℕ) : List ℕ :=
  asciiRIFF ++ uint32LE (36 + 2 * n) ++ asciiWAVE ++ asciiFmtSp ++
    uint32LE 16 ++ uint16LE 1 ++ uint16LE 1 ++ uint32LE rate ++
    uint32LE (rate * 2) ++ uint16LE 2 ++ uint16LE 16 ++ asciiDataTag ++
    uint32LE (2 * n)

/-- The sample payload: each flattened float sample quantized and written
little-endian at offsets 44, 46, ... (AudioRecorder.tsx:693-697). -/
def wavData (flat : List ℚ) : List ℕ :=
  flat.flatMap fun s => int16LE (quantWav s)

/-- `buildWavFromFloat32` (AudioRecorder.tsx:663-699) and `encodeWAV` of the
unnamed component (lines 20-49): flatten the chunk list, emit the 44-byte
header followed by the 16-bit samples. -/
def encodeWAV (chunks : List (List ℚ)) (rate : ℕ) : List ℕ :=
  let flat := chunks.flatten
  wavHeader flat.length rate ++ wavData flat

theorem wavHeader_length (n rate : ℕ) : (wavHeader n rate).length = 44 := by
  simp [wavHeader, uint32LE, uint16LE, asciiRIFF, asciiWAVE, asciiFmtSp, asciiDataTag]

theorem wavData_length (flat : List ℚ) : (wavData flat).length = 2 * flat.length := by
  induction flat with
  | nil => rfl
  | cons s rest ih =>
      have h2 : (int16LE (quantWav s)).length = 2 := rfl
      show (int16LE (quantWav s) ++ wavData rest).length = 2 * (rest.length + 1)
      rw [List.length_append, h2, ih]
      ring

theorem encodeWAV_length (chunks : List (List ℚ)) (rate : ℕ) :
    (encodeWAV chunks rate).length = 44 + 2 * chunks.flatten.length := by
  simp [encodeWAV, wavHeader_length, wavData_length]

theorem wavData_drop_take (flat : List ℚ) (i : ℕ) (h : i < flat.length) :
    ((wavData flat).drop (2 * i)).take 2 = int16LE (quantWav (flat.get ⟨i, h⟩)) := by
  induction flat generalizing i with
  | nil => simp at h
  | cons s rest ih =>
      cases i with
      | zero =>
          simp [wavData, int16LE, uint16LE]
      | succ j =>
          have hj : j < rest.length := by simpa using h
          have step : (wavData (s :: rest)).drop (2 * (j + 1)) = (wavData rest).drop (2 * j) := by
            simp only [wavData, List.flatMap_cons, int16LE, uint16LE]
            have : 2 * (j + 1) = (2 * j) + 2 := by ring
            simp [this, List.drop_append]
          rw [step, ih j hj]
          rfl

example : quantWav (Rat.divInt 1 2) = 16383 := by decide
example : quantMp3 (Rat.divInt 1 2) = 16384 := by decide
example : quantWav (Rat.divInt (-1) 2) = -16384 := by decide
example : quantMp3 (Rat.divInt (-1) 2) = -16384 := by decide
example : quantWav 1 = 32767 := by decide
example : quantMp3 1 = 32767 := by decide
example : quantWav (-1) = -32768 := by decide
example : quantMp3 (Rat.divInt (-3) 2) = -32768 := by decide
/-- Modelled from the spec: the repository contains no WAV decoder; §8's
round-trip property speaks of "decoding the WAV Encoder's output".  This reads
a 4-byte little-endian unsigned field, the inverse of `uint32LE`. -/
def decodeU32 (l : List ℕ) : ℕ :=
  match l with
  | [a, b, c, d] => a + 256 * b + 65536 * c + 16777216 * d
  | _ => 0

/-- Modelled from the spec: read a 16-bit little-endian signed
(two's-complement) field, the inverse of `int16LE`. -/
def decodeI16 (l : List ℕ) : ℤ :=
  match l with
  | [a, b] => if a + 256 * b < 32768 then (a + 256 * b : ℤ) else (a + 256 * b : ℤ) - 65536
  | _ => 0

/-- Modelled from the spec: decode the canonical mono 16-bit PCM WAV layout of
§4.4 — sample count from the data-size field at offset 40, little-endian
signed samples from offset 44 on. -/
def wavDecode (bytes : List ℕ) : List ℤ :=
  (List.range (decodeU32 ((bytes.drop 40).take 4) / 2)).map
    fun i => decodeI16 ((bytes.drop (44 + 2 * i)).take 2)

/-- Modelled from the spec: inverse quantization for §4.4's asymmetric scale —
divide by the scale the quantizer used for the decoded value's sign. -/
def dequant (v : ℤ) : ℚ :=
  if v < 0 then (v : ℚ) / 32768 else (v : ℚ) / 32767

theorem decodeU32_uint32LE (n : ℕ) (h : n < 4294967296) :
    decodeU32 (uint32LE n) = n := by
  simp only [uint32LE, decodeU32]
  omega

theorem decodeI16_int16LE (v : ℤ) (hlo : -32768 ≤ v) (hhi : v < 32768) :
    decodeI16 (int16LE v) = v := by
  simp only [int16LE, uint16LE, decodeI16]
  split <;> omega

/-- The stereo MP3 codec capability (`lamejs.Mp3Encoder`): an opaque-state
encoder with `encodeBuffer` and `flush` operations, treated as an injected
capability (spec section 6). -/
structure Mp3Codec (σ : Type) where
  encodeBuffer : σ → List ℤ → List ℤ → σ × List ℕ
  flush : σ → σ × List ℕ

/-- The frame slices the loop at AudioRecorder.tsx:408-414 submits: pairs
`(left.subarray(i, i + 1152), right.subarray(i, i + 1152))` for
`i = 0, 1152, 2304, …` while `i < left.length`; `subarray` clamps past the
end, i.e. `take`/`drop`. -/
def framePairs (left right : List ℤ) : List (List ℤ × List ℤ) :=
  if left = [] then []
  else (left.take 1152, right.take 1152) :: framePairs (left.drop 1152) (right.drop 1152)
termination_by left.length
decreasing_by
  simp only [List.length_drop]
  have hpos : 0 < left.length := List.length_pos.mpr (by assumption)
  omega

/-- Thread the codec state through the frames, keeping every returned chunk
(empty or not) in emission order; the reference recursion `collectChunks` is
compared against. -/
def encodeOutputs {σ : Type} (c : Mp3Codec σ) : σ → List (List ℤ × List ℤ) → σ × List (List ℕ)
  | st, [] => (st, [])
  | st, p :: rest =>
      let r := c.encodeBuffer st p.1 p.2
      let rr := encodeOutputs c r.1 rest
      (rr.1, r.2 :: rr.2)

/-- The accumulation the source performs: submit each frame in order and push
its output chunk only when non-empty (AudioRecorder.tsx:408-414). -/
def collectChunks {σ : Type} (c : Mp3Codec σ) : σ → List (List ℤ × List ℤ) → σ × List (List ℕ)
  | st, [] => (st, [])
  | st, p :: rest =>
      let r := c.encodeBuffer st p.1 p.2
      let rr := collectChunks c r.1 rest
      (rr.1, if r.2.isEmpty then rr.2 else r.2 :: rr.2)

/-- The MP3 byte stream built from already-converted int16 channel lists:
1152-sample frames in order, non-empty outputs accumulated, one `flush`
afterwards whose output is appended when non-empty, everything concatenated
in emission order (AudioRecorder.tsx:406-425). -/
def mp3Assemble {σ : Type} (c : Mp3Codec σ) (st : σ) (left right : List ℤ) : List ℕ :=
  let fr := collectChunks c st (framePairs left right)
  let fl := (c.flush fr.1).2
  (if fl.isEmpty then fr.2 else fr.2 ++ [fl]).flatten

theorem framePairs_length (left right : List ℤ) :
    (framePairs left right).length = (left.length + 1151) / 1152 := by
  by_cases h : left = []
  · subst h
    simp [framePairs]
  · rw [framePairs, if_neg h]
    have hpos : 0 < left.length := List.length_pos.mpr h
    rw [List.length_cons, framePairs_length (left.drop 1152) (right.drop 1152)]
    simp only [List.length_drop]
    omega
termination_by left.length
decreasing_by
  simp only [List.length_drop]
  have hpos : 0 < left.length := List.length_pos.mpr h
  omega

theorem framePairs_sum (left right : List ℤ) :
    ((framePairs left right).map fun p => p.1.length).sum = left.length := by
  by_cases h : left = []
  · subst h
    simp [framePairs]
  · rw [framePairs, if_neg h]
    have hpos : 0 < left.length := List.length_pos.mpr h
    rw [List.map_cons, List.sum_cons, framePairs_sum (left.drop 1152) (right.drop 1152)]
    simp only [List.length_drop, List.length_take]
    omega
termination_by left.length
decreasing_by
  simp only [List.length_drop]
  have hpos : 0 < left.length := List.length_pos.mpr h
  omega

theorem framePairs_frame_size (left right : List ℤ) :
    ∀ p ∈ framePairs left right, p.1.length ≤ 1152 ∧ p.1 ≠ [] := by
  by_cases h : left = []
  · subst h
    simp [framePairs]
  · rw [framePairs, if_neg h]
    have hpos : 0 < left.length := List.length_pos.mpr h
    intro p hp
    rcases List.mem_cons.mp hp with hhead | htail
    · subst hhead
      constructor
      · simp only [List.length_take]
        omega
      · intro hnil
        have := congrArg List.length hnil
        simp only [List.length_take, List.length_nil] at this
        omega
    · exact framePairs_frame_size (left.drop 1152) (right.drop 1152) p htail
termination_by left.length
decreasing_by
  simp only [List.length_drop]
  have hpos : 0 < left.length := List.length_pos.mpr h
  omega

theorem framePairs_full_frames (left right : List ℤ) :
    ∀ p ∈ (framePairs left right).dropLast, p.1.length = 1152 := by
  by_cases h : left = []
  · subst h
    simp [framePairs]
  · rw [framePairs, if_neg h]
    have hpos : 0 < left.length := List.length_pos.mpr h
    by_cases h2 : left.drop 1152 = []
    · rw [h2]
      simp [framePairs]
    · have hlen : 1152 < left.length := by
        by_contra hc
        exact h2 (List.drop_eq_nil_of_le (by omega))
      intro p hp
      have hne : framePairs (left.drop 1152) (right.drop 1152) ≠ [] := by
        rw [framePairs, if_neg h2]
        exact List.cons_ne_nil _ _
      rw [List.dropLast_cons_of_ne_nil hne] at hp
      rcases List.mem_cons.mp hp with hhead | htail
      · subst hhead
        simp only [List.length_take]
        omega
      · exact framePairs_full_frames (left.drop 1152) (right.drop 1152) p htail
termination_by left.length
decreasing_by
  simp only [List.length_drop]
  have hpos : 0 < left.length := List.length_pos.mpr h
  omega

theorem framePairs_right (left right : List ℤ) (hlen : right.length = left.length) :
    ∀ p ∈ framePairs left right, p.2.length = p.1.length := by
  by_cases h : left = []
  · subst h
    simp [framePairs]
  · rw [framePairs, if_neg h]
    intro p hp
    rcases List.mem_cons.mp hp with hhead | htail
    · subst hhead
      simp only [List.length_take, hlen]
    · exact framePairs_right (left.drop 1152) (right.drop 1152)
        (by simp only [List.length_drop, hlen]) p htail
termination_by left.length
decreasing_by
  simp only [List.length_drop]
  have hpos : 0 < left.length := List.length_pos.mpr h
  omega

theorem collectChunks_state {σ : Type} (c : Mp3Codec σ) (st : σ)
    (ps : List (List ℤ × List ℤ)) :
    (collectChunks c st ps).1 = (encodeOutputs c st ps).1 := by
  induction ps generalizing st with
  | nil => rfl
  | cons p rest ih =>
      simp only [collectChunks, encodeOutputs]
      exact ih _

theorem collectChunks_filter {σ : Type} (c : Mp3Codec σ) (st : σ)
    (ps : List (List ℤ × List ℤ)) :
    (collectChunks c st ps).2 = (encodeOutputs c st ps).2.filter fun ch => ¬ch.isEmpty := by
  induction ps generalizing st with
  | nil => rfl
  | cons p rest ih =>
      simp only [collectChunks, encodeOutputs, List.filter_cons]
      by_cases hemp : (c.encodeBuffer st p.1 p.2).2.isEmpty
      · simp [hemp, ih]
      · simp [hemp, ih]

/-- Errors the MP3 path can raise, the spec section 7 taxonomy for the
throws in `getMp3Blob` (AudioRecorder.tsx:359 no audio, 368-376 decode
rejection, 396-402 codec load failure). -/
inductive Mp3Err
  | noAudio
  | decodeFailed
  | codecUnavailable
deriving DecidableEq

/-- A decoded `AudioBuffer`: per-channel float samples and a sample rate. -/
structure AudioBufferM where
  channels : List (List ℚ)
  sampleRate : ℕ
deriving DecidableEq

/-- The left/right channel selection of AudioRecorder.tsx:378-382:
`getChannelData(0)`, and `numberOfChannels > 1 ? getChannelData(1) : left`. -/
def channelPair (buf : AudioBufferM) : List ℚ × List ℚ :=
  let left := buf.channels.headD []
  (left, if 1 < buf.channels.length then buf.channels.getD 1 [] else left)

/-- The call log of one `getMp3Blob` run: the trace of stereo int16 frame
pairs submitted to `encodeBuffer` in order, the number of `flush` calls, and
the channel-count arguments of every encoder construction
(`new lamejs.Mp3Encoder(2, sampleRate, 128)`, AudioRecorder.tsx:405). -/
structure Mp3CallLog where
  framesSubmitted : List (List ℤ × List ℤ)
  flushCalls : ℕ
  encoderConstructions : List ℕ
deriving DecidableEq

/-- `getMp3Blob` (AudioRecorder.tsx:358-426).  `blob` is the recorded
artifact if any; `decode` is the host's `decodeAudioData` for it (resolve or
reject); `lame` is the lazily loaded codec capability — `none` when the
script fails to load — providing the codec operations and the constructor
`mkEncoder channels sampleRate kbps`.  Returns the result (a complete byte
stream, or an error raised before any encoder interaction) together with the
call log; the three failure paths return before the encoder is even
constructed, so their logs are empty. -/
def getMp3Blob {β σ : Type} (blob : Option β) (decode : β → Except Unit AudioBufferM)
    (lame : Option (Mp3Codec σ × (ℕ → ℕ → ℕ → σ))) :
    Except Mp3Err (List ℕ) × Mp3CallLog :=
  match blob with
  | none => (.error .noAudio, ⟨[], 0, []⟩)
  | some b =>
    match decode b with
    | .error _ => (.error .decodeFailed, ⟨[], 0, []⟩)
    | .ok buf =>
      match lame with
      | none => (.error .codecUnavailable, ⟨[], 0, []⟩)
      | some lm =>
        let lr := channelPair buf
        let leftInt16 := lr.1.map quantMp3
        let rightInt16 := lr.2.map quantMp3
        let st := lm.2 2 buf.sampleRate 128
        (.ok (mp3Assemble lm.1 st leftInt16 rightInt16),
         ⟨framePairs leftInt16 rightInt16, 1, [2]⟩)

/-- Recording lifecycle states (AudioRecorder.tsx:8-13). -/
inductive RecordingStatus
  | idle
  | permission_pending
  | recording
  | stopped
  | error
deriving DecidableEq

/-- Capture strategies (AudioRecorder.tsx:62). -/
inductive CaptureMode
  | mediarecorder
  | webaudio
deriving DecidableEq

/-- The component state plus the refs the recorder mutates: `state`
(AudioRecorder.tsx:45-51), the PCM buffer store `pcmBuffersRef`, the native
chunk list `audioChunksRef`, `captureModeRef`, the audio-context sample rate
when a context exists, and flags recording whether the processing nodes were
disconnected and the context suspended (the release actions of
`stopRecording`, AudioRecorder.tsx:349-353). -/
structure RecorderState where
  status : RecordingStatus
  audioBlob : Option (List ℕ × String)
  errorMessage : Option String
  isProcessing : Bool
  pcmBuffers : List (List ℚ)
  audioChunks : List (List ℕ)
  captureMode : Option CaptureMode
  ctxSampleRate : Option ℕ
  nodesDisconnected : Bool
  ctxSuspended : Bool
deriving DecidableEq

/-- Host environment facts the start path branches on. -/
structure HostEnv where
  permissionGranted : Bool
  hasMediaRecorder : Bool
  isIOS : Bool
deriving DecidableEq

/-- Side effects of a start request that are observable outside the
component state. -/
structure StartEffects where
  deviceRequested : Bool
  onErrorCalled : Bool
deriving DecidableEq

/-- `requestPermissionAndStart` (AudioRecorder.tsx:161-222), with the
device-access round trip resolved against `env`.  The function performs no
state-machine guard: it immediately sets `permission_pending`, requests the
device unconditionally, and on grant engages a capture strategy and enters
`recording` (clearing the strategy's buffer), or on denial enters `error`
and invokes the error observer. -/
def requestPermissionAndStart (s : RecorderState) (env : HostEnv) :
    RecorderState × StartEffects :=
  let pending := { s with status := RecordingStatus.permission_pending }
  if env.permissionGranted then
    if env.hasMediaRecorder then
      ({ pending with status := RecordingStatus.recording,
                      captureMode := some CaptureMode.mediarecorder,
                      audioChunks := [] },
       { deviceRequested := true, onErrorCalled := false })
    else
      ({ pending with status := RecordingStatus.recording,
                      captureMode := some CaptureMode.webaudio,
                      pcmBuffers := [] },
       { deviceRequested := true, onErrorCalled := false })
  else
    ({ pending with status := RecordingStatus.error,
                    errorMessage := some "Microphone access denied" },
     { deviceRequested := true, onErrorCalled := true })

/-- `handleRecordingStop` (AudioRecorder.tsx:225-254): on the MediaRecorder
path, concatenate the native chunks into a blob whose mime type follows the
platform sniff (`audio/mp4` on iOS, `audio/webm` otherwise); on the Web Audio
path, build the preview WAV from the PCM buffers at the context's sample rate
(`|| 44100` treats a missing or zero rate as 44100).  Either way the status
becomes `stopped`. -/
def handleRecordingStop (env : HostEnv) (s : RecorderState) : RecorderState :=
  if s.captureMode = some CaptureMode.mediarecorder then
    { s with audioBlob := some (s.audioChunks.flatten,
                                if env.isIOS then "audio/mp4" else "audio/webm"),
             status := RecordingStatus.stopped }
  else
    let rate := match s.ctxSampleRate with
      | some r => if r = 0 then 44100 else r
      | none => 44100
    { s with audioBlob := some (encodeWAV s.pcmBuffers rate, "audio/wav"),
             status := RecordingStatus.stopped }

/-- `stopRecording` (AudioRecorder.tsx:343-355): a guard returns immediately
unless the status is `recording`; otherwise the active strategy is
disengaged (MediaRecorder `stop()` whose `onstop` handler is modelled as
completing synchronously, or disconnecting the processing nodes and
suspending the context) and `handleRecordingStop` finalizes the artifact. -/
def stopRecording (env : HostEnv) (s : RecorderState) : RecorderState :=
  if s.status ≠ RecordingStatus.recording then s
  else if s.captureMode = some CaptureMode.mediarecorder then
    handleRecordingStop env s
  else
    handleRecordingStop env { s with nodesDisconnected := true, ctxSuspended := true }

/-- `uploadMp3` (AudioRecorder.tsx:429-451): no-op without a blob or without
an `onUpload` callback; otherwise run the MP3 encode, whose outcome is
`encodeResult`.  Success leaves the status untouched; failure sets status to
`error` with the message and reports through `onError`.  Returns the new
state and whether `onError` was called. -/
def uploadMp3 (s : RecorderState) (hasOnUpload : Bool)
    (encodeResult : Except String (List ℕ)) : RecorderState × Bool :=
  if s.audioBlob = none ∨ hasOnUpload = false then (s, false)
  else
    match encodeResult with
    | .ok _ => ({ s with isProcessing := false }, false)
    | .error msg =>
        ({ s with isProcessing := false,
                  status := RecordingStatus.error,
                  errorMessage := some msg }, true)

/-- `handleSave` (AudioRecorder.tsx:454-473): identical control flow to
`uploadMp3` with the `onSave` callback. -/
def handleSave (s : RecorderState) (hasOnSave : Bool)
    (encodeResult : Except String (List ℕ)) : RecorderState × Bool :=
  if s.audioBlob = none ∨ hasOnSave = false then (s, false)
  else
    match encodeResult with
    | .ok _ => ({ s with isProcessing := false }, false)
    | .error msg =>
        ({ s with isProcessing := false,
                  status := RecordingStatus.error,
                  errorMessage := some msg }, true)

theorem clampUnit_lower (s : ℚ) : -1 ≤ clampUnit s :=
  le_max_left _ _

theorem clampUnit_upper (s : ℚ) : clampUnit s ≤ 1 :=
  max_le (by norm_num) (min_le_left _ _)

theorem clampUnit_of_mem (s : ℚ) (h1 : -1 ≤ s) (h2 : s ≤ 1) : clampUnit s = s := by
  rw [clampUnit, min_eq_right h2, max_eq_right h1]

theorem quantWav_lower (s : ℚ) : -32768 ≤ quantWav s := by
  rw [quantWav_eq]
  by_cases h : clampUnit s < 0
  · rw [if_pos h]
    have hc : (-32768 : ℚ) ≤ clampUnit s * 32768 := by
      nlinarith [clampUnit_lower s]
    calc (-32768 : ℤ) = ⌈((-32768 : ℤ) : ℚ)⌉ := (Int.ceil_intCast _).symm
      _ ≤ ⌈clampUnit s * 32768⌉ := Int.ceil_mono (by push_cast; linarith)
  · rw [if_neg h]
    have hge : 0 ≤ ⌊clampUnit s * 32767⌋ := by
      rw [Int.floor_nonneg]
      nlinarith [le_of_not_lt h]
    omega

theorem quantWav_upper (s : ℚ) : quantWav s ≤ 32767 := by
  rw [quantWav_eq]
  by_cases h : clampUnit s < 0
  · rw [if_pos h]
    have hle : ⌈clampUnit s * 32768⌉ ≤ 0 := by
      rw [Int.ceil_le]
      push_cast
      nlinarith
    omega
  · rw [if_neg h]
    calc ⌊clampUnit s * 32767⌋ ≤ ⌊((32767 : ℤ) : ℚ)⌋ :=
          Int.floor_mono (by push_cast; nlinarith [clampUnit_upper s, le_of_not_lt h])
      _ = 32767 := Int.floor_intCast _

/-- Round-trip accuracy of the asymmetric quantizer: for an already clamped
sample, inverse quantization recovers it to within one step of the
positive-side scale, `1/32767`.  (The claimed `1/32768` bound fails; see the
counterexample.) -/
theorem quantWav_dequant_close (s : ℚ) (h1 : -1 ≤ s) (h2 : s ≤ 1) :
    |dequant (quantWav s) - s| < 1 / 32767 := by
  have hstep : (1 : ℚ) / 32768 < 1 / 32767 := by norm_num
  have hc : clampUnit s = s := clampUnit_of_mem s h1 h2
  rw [quantWav_eq, hc]
  by_cases hneg : s < 0
  · rw [if_pos hneg]
    have hub : (⌈s * 32768⌉ : ℚ) < s * 32768 + 1 := Int.ceil_lt_add_one _
    have hlb : s * 32768 ≤ (⌈s * 32768⌉ : ℚ) := Int.le_ceil _
    by_cases hqneg : ⌈s * 32768⌉ < 0
    · have hdq : dequant ⌈s * 32768⌉ = (⌈s * 32768⌉ : ℚ) / 32768 := by
        simp [dequant, hqneg]
      rw [hdq]
      have hge : s ≤ (⌈s * 32768⌉ : ℚ) / 32768 := by
        rw [le_div_iff₀ (by norm_num : (0:ℚ) < 32768)]
        linarith
      have hlt : (⌈s * 32768⌉ : ℚ) / 32768 - s < 1 / 32768 := by
        rw [sub_lt_iff_lt_add, div_lt_iff₀ (by norm_num : (0:ℚ) < 32768)]
        nlinarith
      rw [abs_of_nonneg (by linarith)]
      linarith
    · have hqz : ⌈s * 32768⌉ = 0 := by
        have hle : ⌈s * 32768⌉ ≤ 0 := by
          rw [Int.ceil_le]
          push_cast
          nlinarith
        omega
      rw [hqz]
      have hdq : dequant 0 = 0 := by
        simp [dequant]
      rw [hdq]
      have hgt : -(1 : ℚ) < s * 32768 := by
        rw [hqz] at hub
        push_cast at hub
        linarith
      have hsmall : -s < 1 / 32768 := by
        rw [lt_div_iff₀ (by norm_num : (0:ℚ) < 32768)]
        nlinarith
      rw [zero_sub, abs_neg, abs_of_nonpos hneg.le]
      linarith
  · rw [if_neg hneg]
    push_neg at hneg
    have hlb : (⌊s * 32767⌋ : ℚ) ≤ s * 32767 := Int.floor_le _
    have hub : s * 32767 < (⌊s * 32767⌋ : ℚ) + 1 := Int.lt_floor_add_one _
    have hqnn : 0 ≤ ⌊s * 32767⌋ := by
      rw [Int.floor_nonneg]
      nlinarith
    have hdq : dequant ⌊s * 32767⌋ = (⌊s * 32767⌋ : ℚ) / 32767 := by
      simp [dequant, not_lt.mpr hqnn]
    rw [hdq]
    have hge : (⌊s * 32767⌋ : ℚ) / 32767 ≤ s := by
      rw [div_le_iff₀ (by norm_num : (0:ℚ) < 32767)]
      linarith
    have hlt : s - (⌊s * 32767⌋ : ℚ) / 32767 < 1 / 32767 := by
      rw [sub_lt_iff_lt_add, ← add_div, lt_div_iff₀ (by norm_num : (0:ℚ) < 32767)]
      linarith
    rw [abs_of_nonpos (by linarith), neg_sub]
    linarith

theorem quantMp3_eq_quantWav_of_nonpos (s : ℚ) (h : s ≤ 0) : quantMp3 s = quantWav s := by
  by_cases hz : s = 0
  · rw [hz]
    decide
  have hneg : s < 0 := lt_of_le_of_ne h hz
  by_cases hm1 : s < -1
  · have hc : clampUnit s = -1 := by
      rw [clampUnit, min_eq_right (by linarith), max_eq_left (by linarith)]
    rw [quantMp3_eq, quantWav_eq, hc, if_pos (by norm_num : (-1:ℚ) < 0), if_pos hneg]
    have hv : (-1 : ℚ) * 32768 = ((-32768 : ℤ) : ℚ) := by norm_num
    have hr : ⌈(-1 : ℚ) * 32768⌉ = -32768 := by rw [hv, Int.ceil_intCast]
    rw [hr]
    have hle : ⌈s * 32768⌉ ≤ -32768 := by
      rw [Int.ceil_le]
      push_cast
      nlinarith
    rw [min_eq_right (by omega), max_eq_left (by omega)]
  · have hc : clampUnit s = s := clampUnit_of_mem s (le_of_not_lt hm1) (by linarith)
    rw [quantMp3_eq, quantWav_eq, hc, if_pos hneg, if_pos hneg]
    have hlow : -32768 ≤ ⌈s * 32768⌉ := by
      calc (-32768 : ℤ) = ⌈((-32768 : ℤ) : ℚ)⌉ := (Int.ceil_intCast _).symm
        _ ≤ _ := Int.ceil_mono (by push_cast; nlinarith [le_of_not_lt hm1])
    have hhigh : ⌈s * 32768⌉ ≤ 0 := by
      rw [Int.ceil_le]
      push_cast
      nlinarith
    rw [min_eq_right (by omega), max_eq_right (by omega)]

theorem quantMp3_eq_quantWav_of_one_le (s : ℚ) (h : 1 ≤ s) : quantMp3 s = quantWav s := by
  have hpos : ¬s < 0 := by linarith
  have hc : clampUnit s = 1 := by
    rw [clampUnit, min_eq_left h, max_eq_right (by norm_num : (-1:ℚ) ≤ 1)]
  rw [quantMp3_eq, quantWav_eq, hc, if_neg (by norm_num : ¬(1:ℚ) < 0), if_neg hpos]
  have hr : ⌊(1 : ℚ) * 32767⌋ = 32767 := by
    rw [show (1 : ℚ) * 32767 = ((32767 : ℤ) : ℚ) by norm_num, Int.floor_intCast]
  rw [hr]
  have hbig : 32768 ≤ ⌊s * 32768⌋ := by
    rw [Int.le_floor]
    push_cast
    nlinarith
  rw [min_eq_left (by omega), max_eq_right (by omega)]

theorem quantWav_le_quantMp3 (s : ℚ) : quantWav s ≤ quantMp3 s := by
  by_cases h0 : s ≤ 0
  · rw [quantMp3_eq_quantWav_of_nonpos s h0]
  by_cases h1 : 1 ≤ s
  · rw [quantMp3_eq_quantWav_of_one_le s h1]
  push_neg at h0 h1
  have hc : clampUnit s = s := clampUnit_of_mem s (by linarith) h1.le
  rw [quantMp3_eq, quantWav_eq, hc, if_neg (not_lt.mpr h0.le), if_neg (not_lt.mpr h0.le)]
  have ha : ⌊s * 32767⌋ ≤ ⌊s * 32768⌋ := Int.floor_mono (by nlinarith)
  have hb : ⌊s * 32767⌋ ≤ 32767 := by
    calc ⌊s * 32767⌋ ≤ ⌊((32767 : ℤ) : ℚ)⌋ := Int.floor_mono (by push_cast; nlinarith)
      _ = 32767 := Int.floor_intCast _
  exact le_max_of_le_right (le_min hb ha)

theorem quantMp3_le_quantWav_add_one (s : ℚ) : quantMp3 s ≤ quantWav s + 1 := by
  by_cases h0 : s ≤ 0
  · rw [quantMp3_eq_quantWav_of_nonpos s h0]
    omega
  by_cases h1 : 1 ≤ s
  · rw [quantMp3_eq_quantWav_of_one_le s h1]
    omega
  push_neg at h0 h1
  have hc : clampUnit s = s := clampUnit_of_mem s (by linarith) h1.le
  rw [quantMp3_eq, quantWav_eq, hc, if_neg (not_lt.mpr h0.le), if_neg (not_lt.mpr h0.le)]
  have hfl : 0 ≤ ⌊s * 32767⌋ := by
    rw [Int.floor_nonneg]
    nlinarith
  have hnotbig : ¬32768 ≤ ⌊s * 32768⌋ := by
    intro hbig
    rw [Int.le_floor] at hbig
    push_cast at hbig
    nlinarith
  have hbl : 0 ≤ ⌊s * 32768⌋ := by
    rw [Int.floor_nonneg]
    nlinarith
  have hstep : ⌊s * 32768⌋ ≤ ⌊s * 32767⌋ + 1 := by
    rw [← Int.floor_add_one]
    exact Int.floor_mono (by nlinarith)
  rw [min_eq_right (by omega)]
  rw [max_eq_right (by omega)]
  omega

example : quantWav (Rat.divInt 3 2) = 32767 := by decide
example : int16LE (-1) = [255, 255] := by decide
example : decodeI16 (int16LE (-12345)) = -12345 := by decide
example : wavDecode (encodeWAV [[1, Rat.divInt (-1) 2]] 8000) = [32767, -16384] := by decide
example : (encodeWAV [] 44100).length = 44 := by decide
example : encodeWAV [[1]] 2 =
    [82, 73, 70, 70, 38, 0, 0, 0, 87, 65, 86, 69, 102, 109, 116, 32,
     16, 0, 0, 0, 1, 0, 1, 0, 2, 0, 0, 0, 4, 0, 0, 0, 2, 0, 16, 0,
     100, 97, 116, 97, 2, 0, 0, 0, 255, 127] := by decide

set_option maxHeartbeats 2000000 in
/-- Claim C1: for every sequence of float sample chunks and every positive
sample rate, the WAV encoder's output has length `44 + 2*N` (`N` the total
sample count); its first 44 bytes are the little-endian PCM header with the
`RIFF`/`WAVE`/`fmt `/`data` tags, RIFF size `36 + 2*N`, data size `2*N`,
`NumChannels = 1` and `BitsPerSample = 16`; and the payload is the 16-bit
little-endian encoding of each sample clamped to [-1, 1] and quantized by
`s < 0 ? s*32768 : s*32767` (truncated toward zero by `setInt16`). -/
theorem claim_C1_wav_layout (chunks : List (List ℚ)) (rate : ℕ) (hrate : 0 < rate) :
    (encodeWAV chunks rate).length = 44 + 2 * chunks.flatten.length ∧
    (encodeWAV chunks rate).take 44 = wavHeader chunks.flatten.length rate ∧
    (encodeWAV chunks rate).take 4 = asciiRIFF ∧
    ((encodeWAV chunks rate).drop 4).take 4 = uint32LE (36 + 2 * chunks.flatten.length) ∧
    ((encodeWAV chunks rate).drop 8).take 4 = asciiWAVE ∧
    ((encodeWAV chunks rate).drop 12).take 4 = asciiFmtSp ∧
    ((encodeWAV chunks rate).drop 22).take 2 = uint16LE 1 ∧
    ((encodeWAV chunks rate).drop 24).take 4 = uint32LE rate ∧
    ((encodeWAV chunks rate).drop 34).take 2 = uint16LE 16 ∧
    ((encodeWAV chunks rate).drop 36).take 4 = asciiDataTag ∧
    ((encodeWAV chunks rate).drop 40).take 4 = uint32LE (2 * chunks.flatten.length) ∧
    (∀ i (h : i < chunks.flatten.length),
        ((encodeWAV chunks rate).drop (44 + 2 * i)).take 2 =
          int16LE (quantWav (chunks.flatten.get ⟨i, h⟩))) ∧
    (∀ s : ℚ, quantWav s =
        if clampUnit s < 0 then ⌈clampUnit s * 32768⌉ else ⌊clampUnit s * 32767⌋) := by
  refine ⟨encodeWAV_length chunks rate, rfl, rfl, rfl, rfl, rfl, rfl, rfl, rfl, rfl, rfl,
    ?_, quantWav_eq⟩
  intro i h
  have hsplit : (encodeWAV chunks rate).drop (44 + 2 * i) =
      (wavData chunks.flatten).drop (2 * i) := by
    have h44 : 44 + 2 * i = (wavHeader chunks.flatten.length rate).length + 2 * i := by
      rw [wavHeader_length]
    show ((wavHeader chunks.flatten.length rate ++ wavData chunks.flatten).drop (44 + 2 * i)) = _
    rw [h44, List.drop_append]
  rw [hsplit, wavData_drop_take chunks.flatten i h]

/-- Witness for claim C1 at a concrete input. -/
theorem claim_C1_witness :
    0 < 8000 ∧ (encodeWAV [[1, Rat.divInt (-1) 2]] 8000).length =
      44 + 2 * ([[1, Rat.divInt (-1) 2]] : List (List ℚ)).flatten.length :=
  ⟨by decide, (claim_C1_wav_layout [[1, Rat.divInt (-1) 2]] 8000 (by decide)).1⟩

/-- Claim C10: for an empty input (no chunks, or chunks totalling zero
samples) and any positive sample rate the WAV encoder produces exactly the
44-byte header, with RIFF size field 36 and data size field 0 and no sample
bytes; it does not fail. -/
theorem claim_C10_empty_input (chunks : List (List ℚ)) (rate : ℕ)
    (hempty : chunks.flatten.length = 0) (hrate : 0 < rate) :
    encodeWAV chunks rate = wavHeader 0 rate ∧
    (encodeWAV chunks rate).length = 44 ∧
    ((encodeWAV chunks rate).drop 4).take 4 = [36, 0, 0, 0] ∧
    ((encodeWAV chunks rate).drop 40).take 4 = [0, 0, 0, 0] := by
  have hf : chunks.flatten = [] := List.eq_nil_of_length_eq_zero hempty
  have he : encodeWAV chunks rate = wavHeader 0 rate := by
    show wavHeader chunks.flatten.length rate ++ wavData chunks.flatten = _
    rw [hf]
    rfl
  refine ⟨he, ?_, ?_, ?_⟩ <;> rw [he] <;> rfl

/-- Witness for claim C10 at a concrete input. -/
theorem claim_C10_witness :
    ([[], []] : List (List ℚ)).flatten.length = 0 ∧ 0 < 44100 ∧
    encodeWAV [[], []] 44100 = wavHeader 0 44100 :=
  ⟨by decide, by decide, (claim_C10_empty_input [[], []] 44100 (by decide) (by decide)).1⟩

theorem range_map_getD {α : Type} (n i : ℕ) (f : ℕ → α) (d : α) (h : i < n) :
    ((List.range n).map f).getD i d = f i := by
  simp [List.getD_eq_getElem?_getD, List.getElem?_range, h]

set_option maxHeartbeats 2000000 in
theorem wavDecode_encodeWAV (chunks : List (List ℚ)) (rate : ℕ)
    (hsize : 2 * chunks.flatten.length < 4294967296) :
    wavDecode (encodeWAV chunks rate) =
      (List.range chunks.flatten.length).map
        fun i => decodeI16 (((encodeWAV chunks rate).drop (44 + 2 * i)).take 2) := by
  have h40 : ((encodeWAV chunks rate).drop 40).take 4 =
      uint32LE (2 * chunks.flatten.length) := rfl
  have h2 : 2 * chunks.flatten.length / 2 = chunks.flatten.length := by
    omega
  rw [wavDecode, h40, decodeU32_uint32LE _ hsize, h2]

/-- Claim C8 (amended): decoding the WAV encoder's output reproduces the
sample count (for inputs whose data size fits the 32-bit size field), and
inverse quantization recovers each already clamped sample to within
`1/32767` — one step of the positive-side scale.  The claimed `1/32768`
bound is refuted by the counterexample below; `1/32767` is the tight bound
forced by the asymmetric quantizer's positive branch. -/
theorem claim_C8_wav_roundtrip (chunks : List (List ℚ)) (rate : ℕ)
    (hclamped : ∀ s ∈ chunks.flatten, -1 ≤ s ∧ s ≤ 1) (hrate : 0 < rate)
    (hsize : 2 * chunks.flatten.length < 4294967296) :
    (wavDecode (encodeWAV chunks rate)).length = chunks.flatten.length ∧
    ∀ i (h : i < chunks.flatten.length),
      |dequant ((wavDecode (encodeWAV chunks rate)).getD i 0) -
          chunks.flatten.get ⟨i, h⟩| < 1 / 32767 := by
  have hdec := wavDecode_encodeWAV chunks rate hsize
  constructor
  · rw [hdec]
    simp
  · intro i h
    have hval : (wavDecode (encodeWAV chunks rate)).getD i 0 =
        decodeI16 (((encodeWAV chunks rate).drop (44 + 2 * i)).take 2) := by
      rw [hdec]
      exact range_map_getD _ i _ 0 h
    have hsplit : ((encodeWAV chunks rate).drop (44 + 2 * i)).take 2 =
        int16LE (quantWav (chunks.flatten.get ⟨i, h⟩)) := by
      have h44 : 44 + 2 * i = (wavHeader chunks.flatten.length rate).length + 2 * i := by
        rw [wavHeader_length]
      calc ((encodeWAV chunks rate).drop (44 + 2 * i)).take 2
          = ((wavData chunks.flatten).drop (2 * i)).take 2 := by
            show ((wavHeader chunks.flatten.length rate ++
              wavData chunks.flatten).drop (44 + 2 * i)).take 2 = _
            rw [h44, List.drop_append]
        _ = _ := wavData_drop_take chunks.flatten i h
    have hs := hclamped (chunks.flatten.get ⟨i, h⟩) (List.get_mem _ _ _)
    have hup := quantWav_upper (chunks.flatten.get ⟨i, h⟩)
    rw [hval, hsplit, decodeI16_int16LE _ (quantWav_lower _) (by omega)]
    exact quantWav_dequant_close _ hs.1 hs.2

/-- Witness for the amended claim C8 at a concrete input. -/
theorem claim_C8_witness :
    (∀ s ∈ ([[Rat.divInt 1 2, Rat.divInt (-1) 4]] : List (List ℚ)).flatten,
        -1 ≤ s ∧ s ≤ 1) ∧ 0 < 4 ∧
    (wavDecode (encodeWAV [[Rat.divInt 1 2, Rat.divInt (-1) 4]] 4)).length =
      ([[Rat.divInt 1 2, Rat.divInt (-1) 4]] : List (List ℚ)).flatten.length :=
  ⟨by decide, by decide,
    (claim_C8_wav_roundtrip [[Rat.divInt 1 2, Rat.divInt (-1) 4]] 4
      (by decide) (by decide) (by decide)).1⟩

/-- Claim C8 counterexample: for the clamped sample 65535/2147418112
(≈ 3.05185e-5) the decoded, inverse-quantized value is 0, and the error
exceeds one quantization step 1/32768 — the claimed bound fails on the
positive side, where the quantizer divides the unit interval into 32767
steps, not 32768. -/
theorem claim_C8_counterexample :
    ((-1 : ℚ) ≤ Rat.divInt 65535 2147418112 ∧ (Rat.divInt 65535 2147418112 : ℚ) ≤ 1) ∧
    (wavDecode (encodeWAV [[Rat.divInt 65535 2147418112]] 8000)).length = 1 ∧
    |dequant ((wavDecode (encodeWAV [[Rat.divInt 65535 2147418112]] 8000)).getD 0 0) -
        Rat.divInt 65535 2147418112| > 1 / 32768 := by
  have hdec : wavDecode (encodeWAV [[Rat.divInt 65535 2147418112]] 8000) = [0] := by
    decide
  refine ⟨by decide, ?_, ?_⟩
  · rw [hdec]
    rfl
  · rw [hdec]
    have hget : ([0] : List ℤ).getD 0 0 = 0 := rfl
    rw [hget]
    have h0 : dequant 0 = 0 := by
      norm_num [dequant]
    rw [h0, zero_sub, abs_neg,
      abs_of_nonneg (by decide : (0 : ℚ) ≤ Rat.divInt 65535 2147418112),
      Rat.divInt_eq_div]
    push_cast
    norm_num

/-- Claim C5 counterexample: at s = 1/2 the MP3 path computes
`trunc(clamp(0.5 * 32768)) = 16384` while the WAV rule computes
`trunc(0.5 * 32767) = 16383`; the two conversions are not the same
function. -/
theorem claim_C5_counterexample :
    quantMp3 (Rat.divInt 1 2) = 16384 ∧ quantWav (Rat.divInt 1 2) = 16383 ∧
    quantMp3 (Rat.divInt 1 2) ≠ quantWav (Rat.divInt 1 2) := by
  decide

/-- Claim C5 (amended): the MP3 path's conversion scales by 32768 for both
signs and clamps the result to [-32768, 32767]; it agrees with the WAV
rule for every non-positive sample and for every sample ≥ 1, and on positive
samples below 1 it can exceed the WAV value, by at most 1. -/
theorem claim_C5_conversion_relation (s : ℚ) :
    (s ≤ 0 → quantMp3 s = quantWav s) ∧
    (1 ≤ s → quantMp3 s = quantWav s) ∧
    quantWav s ≤ quantMp3 s ∧ quantMp3 s ≤ quantWav s + 1 :=
  ⟨quantMp3_eq_quantWav_of_nonpos s, quantMp3_eq_quantWav_of_one_le s,
    quantWav_le_quantMp3 s, quantMp3_le_quantWav_add_one s⟩

/-- Witness for the amended claim C5 at concrete inputs. -/
theorem claim_C5_witness :
    quantMp3 (Rat.divInt (-1) 2) = quantWav (Rat.divInt (-1) 2) ∧
    quantMp3 (Rat.divInt 3 2) = quantWav (Rat.divInt 3 2) ∧
    quantWav (Rat.divInt 1 2) ≤ quantMp3 (Rat.divInt 1 2) :=
  ⟨(claim_C5_conversion_relation (Rat.divInt (-1) 2)).1 (by decide),
   (claim_C5_conversion_relation (Rat.divInt 3 2)).2.1 (by decide),
   (claim_C5_conversion_relation (Rat.divInt 1 2)).2.2.1⟩

/-- Claim C2: for N input samples per channel the encode loop submits exactly
`ceil(N/1152)` frames (here `(N + 1151) / 1152` in natural division), every
frame except possibly the last holds exactly 1152 samples, the frames
together cover exactly the N samples, each stereo pair slices the two
channels identically when they have equal length, and — threading one
encoder state through the frames followed by a single flush — the assembled
buffer is the concatenation of the non-empty frame outputs in emission order
with the non-empty flush output appended last. -/
theorem claim_C2_frame_coverage {σ : Type} (c : Mp3Codec σ) (st : σ)
    (left right : List ℤ) :
    (framePairs left right).length = (left.length + 1151) / 1152 ∧
    ((framePairs left right).map fun p => p.1.length).sum = left.length ∧
    (∀ p ∈ framePairs left right, p.1.length ≤ 1152 ∧ p.1 ≠ []) ∧
    (∀ p ∈ (framePairs left right).dropLast, p.1.length = 1152) ∧
    (right.length = left.length →
      ∀ p ∈ framePairs left right, p.2.length = p.1.length) ∧
    mp3Assemble c st left right =
      ((encodeOutputs c st (framePairs left right)).2.filter
          fun ch => ¬ch.isEmpty).flatten ++
        (if ((c.flush (encodeOutputs c st (framePairs left right)).1).2).isEmpty
         then []
         else (c.flush (encodeOutputs c st (framePairs left right)).1).2) := by
  refine ⟨framePairs_length left right, framePairs_sum left right,
    framePairs_frame_size left right, framePairs_full_frames left right,
    fun h => framePairs_right left right h, ?_⟩
  rw [mp3Assemble, collectChunks_filter, collectChunks_state]
  by_cases hfl : ((c.flush (encodeOutputs c st (framePairs left right)).1).2).isEmpty
  · rw [if_pos hfl, if_pos hfl, List.append_nil]
  · rw [if_neg hfl, if_neg hfl, List.flatten_append, List.flatten_cons,
      List.flatten_nil, List.append_nil]

/-- Witness for claim C2 at a concrete codec and input. -/
theorem claim_C2_witness :
    (framePairs [7, 8, 9] [7, 8, 9]).length = (([7, 8, 9] : List ℤ).length + 1151) / 1152 ∧
    ((framePairs [7, 8, 9] [7, 8, 9]).map fun p => p.1.length).sum =
      ([7, 8, 9] : List ℤ).length :=
  ⟨(claim_C2_frame_coverage
      { encodeBuffer := fun u _ _ => (u, []), flush := fun u => (u, [255]) }
      () [7, 8, 9] [7, 8, 9]).1,
   (claim_C2_frame_coverage
      { encodeBuffer := fun u _ _ => (u, []), flush := fun u => (u, [255]) }
      () [7, 8, 9] [7, 8, 9]).2.1⟩

/-- Claim C7: for a mono source (channel count 1) the right channel is the
left channel itself, so the two int16 streams handed to the encoder are
identical, and the encoder is constructed exactly once, with channel count 2
(stereo), regardless. -/
theorem claim_C7_mono_duplication {β σ : Type} (b : β)
    (decode : β → Except Unit AudioBufferM)
    (lm : Mp3Codec σ × (ℕ → ℕ → ℕ → σ)) (buf : AudioBufferM)
    (hdec : decode b = Except.ok buf) (hmono : buf.channels.length = 1) :
    (channelPair buf).2 = (channelPair buf).1 ∧
    (channelPair buf).2.map quantMp3 = (channelPair buf).1.map quantMp3 ∧
    (getMp3Blob (some b) decode (some lm)).2.encoderConstructions = [2] ∧
    (getMp3Blob (some b) decode (some lm)).2.framesSubmitted =
      framePairs ((channelPair buf).1.map quantMp3)
        ((channelPair buf).1.map quantMp3) := by
  have hpair : (channelPair buf).2 = (channelPair buf).1 := by
    simp [channelPair, hmono]
  have hrun : getMp3Blob (some b) decode (some lm) =
      (Except.ok (mp3Assemble lm.1 (lm.2 2 buf.sampleRate 128)
          ((channelPair buf).1.map quantMp3) ((channelPair buf).2.map quantMp3)),
       ⟨framePairs ((channelPair buf).1.map quantMp3)
          ((channelPair buf).2.map quantMp3), 1, [2]⟩) := by
    simp [getMp3Blob, hdec]
  refine ⟨hpair, by rw [hpair], ?_, ?_⟩
  · rw [hrun]
  · rw [hrun, hpair]

/-- Witness for claim C7 at a concrete mono buffer. -/
theorem claim_C7_witness :
    (channelPair ⟨[[Rat.divInt 1 2]], 8000⟩).2 =
      (channelPair ⟨[[Rat.divInt 1 2]], 8000⟩).1 :=
  (claim_C7_mono_duplication 0
    (fun _ : ℕ => Except.ok (⟨[[Rat.divInt 1 2]], 8000⟩ : AudioBufferM))
    (⟨⟨fun st _ _ => (st, []), fun st => (st, [])⟩, fun _ _ _ => 0⟩ :
      Mp3Codec ℕ × (ℕ → ℕ → ℕ → ℕ))
    ⟨[[Rat.divInt 1 2]], 8000⟩ rfl rfl).1

/-- Claim C9: when the source container fails to decode, the MP3 path fails
with `DecodeFailed` before any encoder frame is submitted (and before any
flush or encoder construction), and in general a successful run's bytes are
the complete assembly for the decoded buffer — the result type offers no
partial output. -/
theorem claim_C9_decode_failure {β σ : Type} (b : β)
    (decode : β → Except Unit AudioBufferM)
    (lame : Option (Mp3Codec σ × (ℕ → ℕ → ℕ → σ)))
    (hfail : decode b = Except.error ()) :
    (getMp3Blob (some b) decode lame).1 = Except.error Mp3Err.decodeFailed ∧
    (getMp3Blob (some b) decode lame).2.framesSubmitted = [] ∧
    (getMp3Blob (some b) decode lame).2.flushCalls = 0 ∧
    (getMp3Blob (some b) decode lame).2.encoderConstructions = [] ∧
    (∀ (blob2 : Option β) (bytes : List ℕ),
        (getMp3Blob blob2 decode lame).1 = Except.ok bytes →
        ∃ b2 buf lm, blob2 = some b2 ∧ decode b2 = Except.ok buf ∧
          lame = some lm ∧
          bytes = mp3Assemble lm.1 (lm.2 2 buf.sampleRate 128)
            ((channelPair buf).1.map quantMp3)
            ((channelPair buf).2.map quantMp3)) := by
  refine ⟨by simp [getMp3Blob, hfail], by simp [getMp3Blob, hfail],
    by simp [getMp3Blob, hfail], by simp [getMp3Blob, hfail], ?_⟩
  intro blob2 bytes hok
  cases blob2 with
  | none => simp [getMp3Blob] at hok
  | some b2 =>
    cases hdec2 : decode b2 with
    | error u => simp [getMp3Blob, hdec2] at hok
    | ok buf =>
      cases lame with
      | none => simp [getMp3Blob, hdec2] at hok
      | some lm =>
        refine ⟨b2, buf, lm, rfl, hdec2, rfl, ?_⟩
        simp [getMp3Blob, hdec2] at hok
        exact hok.symm

/-- Witness for claim C9 with a concretely failing decode. -/
theorem claim_C9_witness :
    (getMp3Blob (some 0) (fun _ : ℕ => (Except.error () : Except Unit AudioBufferM))
        (none : Option (Mp3Codec ℕ × (ℕ → ℕ → ℕ → ℕ)))).1 =
      Except.error Mp3Err.decodeFailed :=
  (claim_C9_decode_failure 0
    (fun _ : ℕ => (Except.error () : Except Unit AudioBufferM))
    (none : Option (Mp3Codec ℕ × (ℕ → ℕ → ℕ → ℕ))) rfl).1

/-- A concrete state in `stopped` holding a recorded artifact, used to
instantiate the state-machine claims. -/
def exStoppedState : RecorderState where
  status := RecordingStatus.stopped
  audioBlob := some (encodeWAV [[1]] 44100, "audio/wav")
  errorMessage := none
  isProcessing := false
  pcmBuffers := []
  audioChunks := []
  captureMode := some CaptureMode.webaudio
  ctxSampleRate := some 44100
  nodesDisconnected := true
  ctxSuspended := true

/-- Claim C3 counterexample: from the non-idle state `exStoppedState`
(status `stopped`), a start request does not fail with `InvalidState` — no
such rejection exists in `requestPermissionAndStart` — it requests device
access and moves the state machine to `recording`. -/
theorem claim_C3_counterexample :
    exStoppedState.status ≠ RecordingStatus.idle ∧
    (requestPermissionAndStart exStoppedState ⟨true, true, false⟩).2.deviceRequested = true ∧
    (requestPermissionAndStart exStoppedState ⟨true, true, false⟩).1.status =
      RecordingStatus.recording ∧
    (requestPermissionAndStart exStoppedState ⟨true, true, false⟩).1.status ≠
      exStoppedState.status := by
  decide

/-- Claim C3 (amended): `requestPermissionAndStart` performs no state-machine
guard at all: from every state it issues the device-access request and ends
in `recording` (grant) or `error` (denial, also notifying the error
observer); rejection of non-idle starts exists only in the UI, which renders
the start control in the `idle` state alone. -/
theorem claim_C3_start_unguarded (s : RecorderState) (env : HostEnv) :
    (requestPermissionAndStart s env).2.deviceRequested = true ∧
    (requestPermissionAndStart s env).1.status =
      (if env.permissionGranted then RecordingStatus.recording
       else RecordingStatus.error) ∧
    (env.permissionGranted = false →
      (requestPermissionAndStart s env).2.onErrorCalled = true) := by
  by_cases hp : env.permissionGranted <;> by_cases hm : env.hasMediaRecorder <;>
    simp [requestPermissionAndStart, hp, hm]

/-- Witness for the amended claim C3 at a concrete state and environment. -/
theorem claim_C3_witness :
    (requestPermissionAndStart exStoppedState ⟨false, true, false⟩).2.deviceRequested = true ∧
    (requestPermissionAndStart exStoppedState ⟨false, true, false⟩).2.onErrorCalled = true :=
  ⟨(claim_C3_start_unguarded exStoppedState ⟨false, true, false⟩).1,
   (claim_C3_start_unguarded exStoppedState ⟨false, true, false⟩).2.2 rfl⟩

/-- Claim C4 counterexample: in the stopped state `exStoppedState`, a failing
MP3 encode inside the upload wrapper does not leave the capture state at
`stopped` — the catch handler sets it to `error`. -/
theorem claim_C4_counterexample :
    exStoppedState.status = RecordingStatus.stopped ∧
    (uploadMp3 exStoppedState true (Except.error "Failed to load lamejs")).1.status ≠
      RecordingStatus.stopped ∧
    (uploadMp3 exStoppedState true (Except.error "Failed to load lamejs")).1.status =
      RecordingStatus.error := by
  decide

/-- Claim C4 (amended): a failing encode inside the upload and save wrappers
clears `isProcessing`, sets the status to `error` with the failure message
(so the capture state does not remain `stopped`), and reports through the
error observer; the recorded artifact itself is preserved unchanged (as it
also is on any other encode outcome). -/
theorem claim_C4_encode_failure_effects (s : RecorderState) (msg : String)
    (hblob : s.audioBlob ≠ none) :
    ((uploadMp3 s true (Except.error msg)).1.status = RecordingStatus.error ∧
     (uploadMp3 s true (Except.error msg)).1.audioBlob = s.audioBlob ∧
     (uploadMp3 s true (Except.error msg)).1.errorMessage = some msg ∧
     (uploadMp3 s true (Except.error msg)).1.isProcessing = false ∧
     (uploadMp3 s true (Except.error msg)).2 = true) ∧
    ((handleSave s true (Except.error msg)).1.status = RecordingStatus.error ∧
     (handleSave s true (Except.error msg)).1.audioBlob = s.audioBlob ∧
     (handleSave s true (Except.error msg)).1.errorMessage = some msg ∧
     (handleSave s true (Except.error msg)).1.isProcessing = false ∧
     (handleSave s true (Except.error msg)).2 = true) ∧
    (∀ res : Except String (List ℕ),
      (uploadMp3 s true res).1.audioBlob = s.audioBlob ∧
      (handleSave s true res).1.audioBlob = s.audioBlob) := by
  refine ⟨by simp [uploadMp3, hblob], by simp [handleSave, hblob], ?_⟩
  intro res
  cases res <;> simp [uploadMp3, handleSave, hblob]

/-- Witness for the amended claim C4 at a concrete stopped state. -/
theorem claim_C4_witness :
    (uploadMp3 exStoppedState true (Except.error "boom")).1.audioBlob =
      exStoppedState.audioBlob :=
  (claim_C4_encode_failure_effects exStoppedState "boom" (by decide)).1.2.1

theorem handleRecordingStop_status (env : HostEnv) (s : RecorderState) :
    (handleRecordingStop env s).status = RecordingStatus.stopped := by
  rw [handleRecordingStop]
  split <;> rfl

/-- Claim C6: `stopRecording` is idempotent — a second call observes a state
whose status is no longer `recording` and returns it unchanged (same status,
artifact and release flags) — and from any state other than `recording` it
is a no-op.  The MediaRecorder `onstop` callback is modelled as completing
synchronously inside `stop()`. -/
theorem claim_C6_stop_idempotent (env : HostEnv) (s : RecorderState) :
    stopRecording env (stopRecording env s) = stopRecording env s ∧
    (s.status ≠ RecordingStatus.recording → stopRecording env s = s) := by
  have hnoop : ∀ t : RecorderState, t.status ≠ RecordingStatus.recording →
      stopRecording env t = t := by
    intro t ht
    rw [stopRecording, if_pos ht]
  constructor
  · by_cases h : s.status = RecordingStatus.recording
    · have h1 : (stopRecording env s).status = RecordingStatus.stopped := by
        rw [stopRecording, if_neg (fun hc => hc h)]
        split
        · exact handleRecordingStop_status env s
        · exact handleRecordingStop_status env _
      refine hnoop _ ?_
      rw [h1]
      intro hc
      cases hc
    · rw [hnoop s h]
      exact hnoop s h
  · exact hnoop s

/-- Witness for claim C6 at a concrete non-recording state. -/
theorem claim_C6_witness :
    stopRecording ⟨true, true, false⟩ exStoppedState = exStoppedState ∧
    stopRecording ⟨true, true, false⟩
        (stopRecording ⟨true, true, false⟩ exStoppedState) =
      stopRecording ⟨true, true, false⟩ exStoppedState :=
  ⟨(claim_C6_stop_idempotent ⟨true, true, false⟩ exStoppedState).2 (by decide),
   (claim_C6_stop_idempotent ⟨true, true, false⟩ exStoppedState).1⟩

end VoiceRecorder
